import Mathlib

/-!
Verification development for the NimbusCode command-line client.

The repository contains two parallel implementations of the same tool:
a blocking one (`rust/src/lib.rs` together with `rust/src/main.rs`) and an
async one (`src/main.rs`).  The definitions below are shallow embeddings of
the functions of both implementations; effectful collaborators (the HTTP
transport, the persisted configuration store, the process environment) are
passed in explicitly as values or functions.  Definitions whose names match
source functions are direct translations of the corresponding Rust code.
-/

/-! ## Data model (types shared by both implementations) -/

/-- `Config` from `rust/src/lib.rs` (JSON config file).  The `f32`
temperature is modelled as an exact rational; no arithmetic is ever
performed on it. -/
structure Config where
  api_key : String
  model : String
  max_tokens : Nat
  temperature : Rat
deriving DecidableEq

/-- Constant `DEFAULT_MODEL` of the blocking implementation. -/
def DEFAULT_MODEL : String := "openrouter/auto"

/-- Constant `DEFAULT_MAX_TOKENS` of the blocking implementation. -/
def DEFAULT_MAX_TOKENS : Nat := 1024

/-- Constant `DEFAULT_TEMPERATURE` of the blocking implementation (0.7). -/
def DEFAULT_TEMPERATURE : Rat := (7 : Rat) / 10

/-- `impl Default for Config` from `rust/src/lib.rs`. -/
def Config.defaultConfig : Config :=
  ⟨"", DEFAULT_MODEL, DEFAULT_MAX_TOKENS, DEFAULT_TEMPERATURE⟩

/-- `Message` (role-tagged chat message), identical in both implementations. -/
structure Message where
  role : String
  content : String
deriving DecidableEq

/-- `OpenRouterRequest` from `rust/src/lib.rs`. -/
structure OpenRouterRequest where
  model : String
  messages : List Message
  max_tokens : Nat
  temperature : Rat
deriving DecidableEq

/-- `OpenRouterChoice` from `rust/src/lib.rs`. -/
structure OpenRouterChoice where
  message : Message
deriving DecidableEq

/-- `OpenRouterResponse` from `rust/src/lib.rs`. -/
structure OpenRouterResponse where
  choices : List OpenRouterChoice
deriving DecidableEq

/-- `ChatRequest` of the async implementation (`src/main.rs`): note that it
carries no `max_tokens` or `temperature`. -/
structure ChatRequest where
  model : String
  messages : List Message
deriving DecidableEq

/-- `Choice` of the async implementation. -/
structure Choice where
  message : Message
deriving DecidableEq

/-- `ChatResponse` of the async implementation. -/
structure ChatResponse where
  choices : List Choice
deriving DecidableEq

/-! ## CodeBlockExtractor

`extract_code_blocks` in `rust/src/lib.rs` is
`Regex::new(r"(three backticks)(?:\w+)?\n([\s\S]*?)\n(three backticks)")`
followed by `captures_iter`, collecting capture group 1 of every
(non-overlapping, leftmost) match.  The scanner below reproduces those
regex semantics directly on the character list:

* an opening match at a position requires three backticks, then a maximal
  run of word characters (the discarded language tag), then a newline;
* the capture is the shortest character sequence followed by a newline and
  three backticks (lazy `*?`);
* scanning resumes after the end of each match, and advances one character
  on failure.
-/

/-- The backtick character (written via its hexadecimal escape). -/
def backquote : Char := '\x60'

/-- Approximation of the regex class `\w` (word character). -/
def isWordChar (c : Char) : Bool := c.isAlphanum || c == '_'

/-- Attempt to match the opening part of the regex at the head of the
input; on success returns the characters following the opening newline. -/
def matchOpen (l : List Char) : Option (List Char) :=
  if l.take 3 = [backquote, backquote, backquote] ∧
      ((l.drop 3).dropWhile isWordChar).head? = some '\n'
  then some ((l.drop 3).dropWhile isWordChar).tail
  else none

/-- Does the list start with newline followed by three backticks (the
closing-fence pattern of the regex)? -/
def isClose (l : List Char) : Bool :=
  l.take 4 == ['\n', backquote, backquote, backquote]

/-- Lazy search for the closing pattern: content up to the first
newline-plus-three-backticks, and the rest after the closing backticks. -/
def findClose : List Char → Option (List Char × List Char)
  | [] => none
  | c :: r =>
    if isClose (c :: r) then some ([], r.drop 3)
    else
      match findClose r with
      | some p => some (c :: p.1, p.2)
      | none => none

/-- Does the closing-fence pattern occur anywhere in the list? -/
def hasClose : List Char → Bool
  | [] => false
  | c :: r => isClose (c :: r) || hasClose r

/-- One fuel-indexed pass of `captures_iter`: at each position try the full
regex match (opening, then lazy content, then closing); on success emit the
capture and resume after the match, otherwise advance one character. -/
def scanAux : Nat → List Char → List (List Char)
  | 0, _ => []
  | _ + 1, [] => []
  | n + 1, c :: r =>
    match matchOpen (c :: r) with
    | some afterOpen =>
      match findClose afterOpen with
      | some p => p.1 :: scanAux n p.2
      | none => scanAux n r
    | none => scanAux n r

/-- `extract_code_blocks` from `rust/src/lib.rs`. -/
def extract_code_blocks (markdown_text : String) : List String :=
  (scanAux (markdown_text.data.length + 1) markdown_text.data).map
    (fun cs => String.mk cs)

/-! ### Canonical fence semantics (from the specification text)

Modelled from the spec: section 4.4 of the specification gives the
canonical semantics — a block begins at a line consisting of a fence
marker (three or more backticks) optionally followed by a language tag,
ends at the next line consisting solely of a fence marker of the same or
greater length, the content is the lines strictly between joined by
newlines, and an unterminated fence contributes no block.  These
definitions follow the specification's words and exist to be compared
with `extract_code_blocks` above. -/

/-- Split a character list into lines at newline characters. -/
def splitLinesCh : List Char → List (List Char)
  | [] => [[]]
  | c :: r =>
    if c = '\n' then [] :: splitLinesCh r
    else
      match splitLinesCh r with
      | l :: ls => (c :: l) :: ls
      | [] => [[c]]

/-- Length of the leading backtick run of a line. -/
def leadTicks (l : List Char) : Nat := (l.takeWhile (fun c => c == backquote)).length

/-- Is the line an opening fence (three or more backticks, optionally
followed by a language tag containing no backtick)?  Returns the fence
length. -/
def openFence (l : List Char) : Option Nat :=
  if 3 ≤ leadTicks l ∧ (l.drop (leadTicks l)).all (fun c => c != backquote)
  then some (leadTicks l)
  else none

/-- Does the line consist solely of a fence marker of length at least `k`? -/
def closesFence (l : List Char) (k : Nat) : Bool :=
  l.all (fun c => c == backquote) && decide (k ≤ l.length)

/-- Walk the lines, collecting the content of each well-formed fence pair;
the state is `none` outside a block and `some (fence length, accumulated
lines)` inside one. -/
def canonicalWalk : List (List Char) → Option (Nat × List (List Char)) → List (List Char)
  | [], _ => []
  | l :: rest, none =>
    match openFence l with
    | some k => canonicalWalk rest (some (k, []))
    | none => canonicalWalk rest none
  | l :: rest, some st =>
    if closesFence l st.1 then
      (List.intercalate ['\n'] st.2.reverse) :: canonicalWalk rest none
    else canonicalWalk rest (some (st.1, l :: st.2))

/-- Canonical extractor following the specification's fence semantics. -/
def canonical_extract (markdown_text : String) : List String :=
  (canonicalWalk (splitLinesCh markdown_text.data) none).map (fun cs => String.mk cs)

/-! ## ConfigResolver

Blocking implementation (`rust/src/lib.rs`): `load_config` returns the
parsed JSON config, or `Config::default()` when the file does not exist;
`get_api_key` takes the stored key when nonempty, else the
`OPENROUTER_API_KEY` environment variable, and exits the process when the
result is empty.  The store is passed as `Option Config` (absent file or
present well-formed file) and the environment variable as `Option String`;
the `process::exit(1)` is modelled as returning `none`. -/

/-- `load_config` from `rust/src/lib.rs`. -/
def load_config (store : Option Config) : Config :=
  store.getD Config.defaultConfig

/-- `get_api_key` from `rust/src/lib.rs` (given the loaded config and the
environment variable); `none` models the process exit on a missing key. -/
def get_api_key (config : Config) (env : Option String) : Option String :=
  let apiKey := if config.api_key = "" then env.getD "" else config.api_key
  if apiKey = "" then none else some apiKey

/-! Async implementation (`src/main.rs`): the configuration is an ini file
with sections; `NimbusCode::new` resolves the api key as
`env::var("OPENROUTER_API_KEY").ok().or_else(nonempty stored value)`, and
`make_request` resolves the model as the explicit override, else the
stored `default_model`, else `DEFAULT_MODEL` of that file. -/

/-- Ini contents as an association list from (section, key) to value. -/
abbrev IniData := List ((String × String) × String)

/-- `Ini::get`. -/
def iniGet (ini : IniData) (sect key : String) : Option String :=
  match ini.find? (fun e => e.1.1 == sect && e.1.2 == key) with
  | some e => some e.2
  | none => none

/-- `Ini::set`. -/
def iniSet (ini : IniData) (sect key v : String) : IniData :=
  match ini with
  | [] => [((sect, key), v)]
  | e :: rest =>
    if e.1.1 == sect && e.1.2 == key then ((sect, key), v) :: rest
    else e :: iniSet rest sect key v

/-- Constant `DEFAULT_MODEL` of the async implementation (`src/main.rs`). -/
def DEFAULT_MODEL_ASYNC : String := "mistralai/mistral-7b-instruct:free"

/-- Api-key resolution performed in `NimbusCode::new`: the environment
variable (when set, even to the empty string) takes precedence, else the
stored value filtered to be nonempty. -/
def resolveApiKeyAsync (env : Option String) (ini : IniData) : Option String :=
  match env with
  | some v => some v
  | none =>
    match iniGet ini "API" "api_key" with
    | some s => if s = "" then none else some s
    | none => none

/-- Model resolution performed in `NimbusCode::make_request`. -/
def resolveModelAsync (ovr : Option String) (ini : IniData) : String :=
  match ovr with
  | some m => m
  | none => (iniGet ini "API" "default_model").getD DEFAULT_MODEL_ASYNC

/-! Specification-side resolver (from the spec's words): a layered lookup
in which the highest-precedence present source wins.  Used to compare the
two implementations' resolution order with the specified one. -/

/-- First present (`some`) source in precedence order. -/
def firstPresent : List (Option String) → Option String
  | [] => none
  | some v :: _ => some v
  | none :: rest => firstPresent rest

/-- A string source is present when nonempty. -/
def nonemptyOpt (s : String) : Option String :=
  if s = "" then none else some s

/-! ## CompletionClient

Both implementations POST the request and classify the reply.  The HTTP
reply is modelled as the status, the raw body text, and the result serde
would produce when parsing that body (`none` models a parse failure). -/

/-- Is the status 2xx (`reqwest::StatusCode::is_success`)? -/
def isSuccessStatus (status : Nat) : Bool := decide (200 ≤ status ∧ status < 300)

/-- HTTP reply as seen by the blocking `query_openrouter`. -/
structure CompletionHttpResponse where
  status : Nat
  body : String
  parsed : Option OpenRouterResponse
deriving DecidableEq

/-- HTTP reply as seen by the async `make_request`. -/
structure ChatHttpResponse where
  status : Nat
  body : String
  parsed : Option ChatResponse
deriving DecidableEq

/-- Error outcomes of the blocking `query_openrouter`; the `anyhow`
errors are modelled as the message strings the source formats. -/
inductive QueryError where
  | credentialMissing
  | apiError (message : String)
  | parseError
  | emptyResponse (message : String)
deriving DecidableEq

/-- Error outcomes of the async `make_request`. -/
inductive RequestError where
  | apiKeyNotSet
  | apiError (message : String)
  | parseError
deriving DecidableEq

/-- Rendering of the status code inside the async error message.  The
`http` crate's `Display` also appends the canonical reason phrase; only
the numeric part matters here. -/
def statusDisplay (status : Nat) : String := toString status

/-- The message list built by `query_openrouter`: the optional system
prompt first, then the single user message. -/
def queryMessages (prompt : String) (system_prompt : Option String) : List Message :=
  (match system_prompt with
   | some s => [⟨"system", s⟩]
   | none => []) ++ [⟨"user", prompt⟩]

/-- Reply handling of `query_openrouter` (`rust/src/lib.rs`, after
`send()`): non-2xx becomes the error formatted from the body alone, a 2xx
body that fails to parse is a parse error, an empty `choices` is the
no-choices error, otherwise the first choice's content is returned. -/
def handleCompletionReply (r : CompletionHttpResponse) : Except QueryError String :=
  if isSuccessStatus r.status = false then
    .error (.apiError ("OpenRouter API returned error: " ++ r.body))
  else
    match r.parsed with
    | none => .error .parseError
    | some resp =>
      match resp.choices with
      | [] => .error (.emptyResponse "OpenRouter API returned no choices")
      | c :: _ => .ok c.message.content

/-- `query_openrouter` from `rust/src/lib.rs`, with the transport passed
in; the second component counts the network calls issued. -/
def query_openrouter (store : Option Config) (env : Option String)
    (transport : OpenRouterRequest → CompletionHttpResponse)
    (prompt : String) (system_prompt : Option String) :
    Except QueryError String × Nat :=
  let config := load_config store
  match get_api_key config env with
  | none => (.error .credentialMissing, 0)
  | some _ =>
    let request : OpenRouterRequest :=
      ⟨config.model, queryMessages prompt system_prompt,
        config.max_tokens, config.temperature⟩
    (handleCompletionReply (transport request), 1)

/-- Reply handling of the async `make_request` (`src/main.rs`): non-2xx
becomes an error carrying the status and the body, a 2xx body that fails
to parse is a parse error, and any parsed body — including one with zero
choices — is returned as success. -/
def handleChatReply (r : ChatHttpResponse) : Except RequestError ChatResponse :=
  if isSuccessStatus r.status = false then
    .error (.apiError ("API request failed with status " ++ statusDisplay r.status
      ++ ": " ++ r.body))
  else
    match r.parsed with
    | none => .error .parseError
    | some cr => .ok cr

/-- `NimbusCode::make_request` from `src/main.rs`: fails before any
network call when the resolved api key is absent; the second component
counts the network calls issued. -/
def make_request (apiKey : Option String) (messages : List Message)
    (model : Option String) (ini : IniData)
    (transport : ChatRequest → ChatHttpResponse) :
    Except RequestError ChatResponse × Nat :=
  match apiKey with
  | none => (.error .apiKeyNotSet, 0)
  | some _ =>
    let m := resolveModelAsync model ini
    (handleChatReply (transport ⟨m, messages⟩), 1)

/-- The `response.choices[0].message.content` indexing performed by every
caller of `make_request`; `none` models the Rust panic on an empty
`choices` vector. -/
def firstChoiceContent (r : ChatResponse) : Option String :=
  match r.choices with
  | [] => none
  | c :: _ => some c.message.content

/-! ## ConversationSession

Blocking implementation (`cmd_interactive` in `rust/src/main.rs`): the
sentinels are `exit`, `quit` and `q` (on the trimmed, lowercased input);
on an ordinary input the trimmed text is appended to the history as a
user message, the whole history is flattened into one text block, and
`query_openrouter` is called with that text as the single user prompt.

Async implementation (`NimbusCode::interactive` in `src/main.rs`): the
sentinels are only `exit` and `quit`; the message vector (system message
first) is sent as-is to `make_request`.

Both loops are modelled over a list of operator inputs, with the
completion collaborator abstracted as a total function (a request-level
failure aborts the session and is not needed for the properties below).
Each loop also returns the message list of every completion request it
issued, in order; its length is the number of network calls. -/

/-- Rust `str::trim` (whitespace from both ends), modelled on the
character list; Unicode whitespace beyond ASCII is not distinguished. -/
def rustTrim (s : String) : String :=
  String.mk (((s.data.dropWhile Char.isWhitespace).reverse.dropWhile
    Char.isWhitespace).reverse)

/-- Rust `str::to_lowercase`, modelled characterwise (ASCII-faithful). -/
def rustToLower (s : String) : String :=
  String.mk (s.data.map Char.toLower)

/-- Sentinel test of `cmd_interactive` (applied to the trimmed input). -/
def isSentinelB (input : String) : Bool :=
  rustToLower input == "exit" || rustToLower input == "quit" ||
    rustToLower input == "q"

/-- Sentinel test of `NimbusCode::interactive` (applied to the trimmed
input); note the absence of `q`. -/
def isSentinelA (input : String) : Bool :=
  rustToLower input == "exit" || rustToLower input == "quit"

/-- System prompt of `cmd_interactive` (text abbreviated; its content is
not load-bearing for any property below). -/
def cmdInteractiveSystemPrompt : String :=
  "You are NimbusCode, an expert programming assistant in an interactive session."

/-- Initial system message of `NimbusCode::interactive`. -/
def asyncInteractiveSystem : Message :=
  ⟨"system",
   "You are a helpful coding assistant. Provide concise, accurate answers to coding questions."⟩

/-- The per-message line of the history flattening in `cmd_interactive`. -/
def formatTurn (m : Message) : String :=
  (if m.role = "user" then "User" else "Assistant") ++ ": " ++ m.content

/-- The full-history flattening in `cmd_interactive`: entries joined by
blank lines. -/
def flattenHistory (h : List Message) : String :=
  String.intercalate "\n\n" (h.map formatTurn)

/-- The loop of `cmd_interactive` over a list of operator inputs,
starting from the given history.  Returns the final history and the
message lists of all completion requests issued (each request is built by
`query_openrouter` from the flattened history and the session system
prompt). -/
def interactiveLoopB (transport : String → Option String → String) :
    List String → List Message → List Message × List (List Message)
  | [], hist => (hist, [])
  | inp :: rest, hist =>
    let t := rustTrim inp
    if isSentinelB t then (hist, [])
    else
      let hist1 := hist ++ [⟨"user", t⟩]
      let resp := transport (flattenHistory hist1) (some cmdInteractiveSystemPrompt)
      let r := interactiveLoopB transport rest (hist1 ++ [⟨"assistant", resp⟩])
      (r.1, queryMessages (flattenHistory hist1) (some cmdInteractiveSystemPrompt) :: r.2)

/-- The loop of `NimbusCode::interactive` over a list of operator inputs,
starting from the given message vector (the system message at session
start).  Returns the final message vector and the message lists of all
completion requests issued. -/
def interactiveLoopA (transport : List Message → String) :
    List String → List Message → List Message × List (List Message)
  | [], msgs => (msgs, [])
  | inp :: rest, msgs =>
    let t := rustTrim inp
    if isSentinelA t then (msgs, [])
    else
      let msgs1 := msgs ++ [⟨"user", t⟩]
      let resp := transport msgs1
      let r := interactiveLoopA transport rest (msgs1 ++ [⟨"assistant", resp⟩])
      (r.1, msgs1 :: r.2)

/-! ## set-credential and configure --show -/

/-- In-memory state of `NimbusCode` (`src/main.rs`): the loaded ini
contents and the resolved api key. -/
structure NimbusState where
  config : IniData
  apiKey : Option String
deriving DecidableEq

/-- Outcome of `NimbusCode::set_api_key`: the in-memory state after the
call, the persisted store after the call, and whether the call succeeded. -/
structure SetKeyResult where
  memory : NimbusState
  store : IniData
  ok : Bool
deriving DecidableEq

/-- `NimbusCode::set_api_key` from `src/main.rs`: the in-memory ini is
mutated first, then `save_config` writes it to the store (`writeOk`
abstracts the collaborator's success; on failure the store is modelled as
unchanged), and only after a successful write is `self.api_key` updated —
on failure the `?` operator returns with the ini already mutated. -/
def set_api_key (st : NimbusState) (store : IniData) (key : String)
    (writeOk : Bool) : SetKeyResult :=
  let cfg := iniSet st.config "API" "api_key" key
  if writeOk then ⟨⟨cfg, some key⟩, cfg, true⟩
  else ⟨⟨cfg, st.apiKey⟩, store, false⟩

/-- The api-key masking of `cmd_config --show` (`rust/src/main.rs`): the
displayed config is a clone whose key is replaced only when nonempty —
eight asterisks plus the last four characters when longer than four, bare
eight asterisks otherwise.  (The source slices the last four bytes; the
character-level model agrees on ASCII keys.) -/
def cmdConfigShowDisplay (c : Config) : Config :=
  if c.api_key = "" then c
  else if 4 < c.api_key.length then
    { c with api_key := "********" ++ c.api_key.drop (c.api_key.length - 4) }
  else { c with api_key := "********" }

/-- The masking rule stated by the (amended) specification wording: keys
longer than four characters show eight asterisks plus the last four, the
empty key is displayed unchanged (empty), and any other key shows exactly
eight asterisks. -/
def maskSpecAmended (k : String) : String :=
  if 4 < k.length then "********" ++ k.drop (k.length - 4)
  else if k = "" then ""
  else "********"

/-- A single fenced block as produced by the source (three backticks,
language tag, newline, content, newline, three backticks). -/
def mkFence (tag content : String) : String :=
  "```" ++ tag ++ "\n" ++ content ++ "\n```"

/-- A markdown document built from backtick-free gap text and fenced
blocks: each part is (gap before the block, language tag, content). -/
def mkDoc : List (String × String × String) → String → String
  | [], final => final
  | (gap, tag, content) :: rest, final => gap ++ mkFence tag content ++ mkDoc rest final

/-- Character-level image of `mkDoc`. -/
def mkDocL : List (List Char × List Char × List Char) → List Char → List Char
  | [], final => final
  | (gap, tag, content) :: rest, final =>
    gap ++ (backquote :: backquote :: backquote ::
      (tag ++ '\n' :: (content ++ '\n' :: backquote :: backquote :: backquote ::
        mkDocL rest final)))

/-! ## Request shape -/

/-- Are all roles in the list `user` or `assistant`? -/
def rolesUA (l : List Message) : Bool :=
  l.all (fun m => m.role == "user" || m.role == "assistant")

/-- The request shape stated by the specification invariant: at most one
system message, placed first, followed by one or more user/assistant
messages. -/
def wellFormedRequest (l : List Message) : Bool :=
  match l with
  | [] => false
  | m :: rest =>
    if m.role == "system" then !rest.isEmpty && rolesUA rest
    else rolesUA (m :: rest)

/-! ## Scanner lemmas -/

/-- A position whose head is not a backtick cannot start a match. -/
theorem matchOpen_of_head_ne (c : Char) (r : List Char) (h : ¬ c = backquote) :
    matchOpen (c :: r) = none := by
  simp only [matchOpen]
  rw [if_neg]
  rintro ⟨h1, -⟩
  rw [show (c :: r).take 3 = c :: r.take 2 from rfl] at h1
  injection h1 with h1a h1b
  exact h h1a

theorem hasClose_cons_false (c : Char) (r : List Char) (h : hasClose (c :: r) = false) :
    isClose (c :: r) = false ∧ hasClose r = false := by
  simpa [hasClose] using h

theorem hasClose_append_right (a b : List Char) (h : hasClose (a ++ b) = false) :
    hasClose b = false := by
  induction a with
  | nil => simpa using h
  | cons c a ih => exact ih (hasClose_cons_false c (a ++ b) (by simpa using h)).2

theorem hasClose_of_suffix (a l : List Char) (hs : a <:+ l) (h : hasClose l = false) :
    hasClose a = false := by
  obtain ⟨t, rfl⟩ := hs
  exact hasClose_append_right t a h

/-- A successful opening match leaves a suffix of the input. -/
theorem matchOpen_suffix (l a : List Char) (h : matchOpen l = some a) : a <:+ l := by
  simp only [matchOpen] at h
  split at h
  · injection h with h
    rw [← h]
    exact (List.tail_suffix _).trans
      ((List.dropWhile_suffix isWordChar).trans (List.drop_suffix 3 l))
  · exact absurd h (by simp)

/-- Without the closing pattern anywhere, the lazy close search fails. -/
theorem findClose_none (l : List Char) (h : hasClose l = false) : findClose l = none := by
  induction l with
  | nil => rfl
  | cons c r ih =>
    obtain ⟨h1, h2⟩ := hasClose_cons_false c r h
    simp [findClose, h1, ih h2]

/-- Without the closing pattern anywhere, the scanner finds no block. -/
theorem scanAux_nil_of_hasClose_false (n : Nat) (l : List Char)
    (h : hasClose l = false) : scanAux n l = [] := by
  induction n generalizing l with
  | zero => rfl
  | succ n ih =>
    cases l with
    | nil => rfl
    | cons c r =>
      cases hm : matchOpen (c :: r) with
      | none =>
        simp only [scanAux, hm]
        exact ih r (hasClose_cons_false c r h).2
      | some a =>
        have ha : hasClose a = false :=
          hasClose_of_suffix a (c :: r) (matchOpen_suffix (c :: r) a hm) h
        simp only [scanAux, hm, findClose_none a ha]
        exact ih r (hasClose_cons_false c r h).2

/-- A string with no backtick contains the closing pattern nowhere. -/
theorem hasClose_of_no_backquote (l : List Char)
    (h : l.all (fun c => c != backquote) = true) : hasClose l = false := by
  induction l with
  | nil => rfl
  | cons c r ih =>
    rw [List.all_cons, Bool.and_eq_true] at h
    have hr : r.all (fun c => c != backquote) = true := h.2
    have hc : isClose (c :: r) = false := by
      cases r with
      | nil => simp [isClose]
      | cons d r2 =>
        have hd : ¬ d = backquote := by
          rw [List.all_cons, Bool.and_eq_true] at hr
          simpa using hr.1
        simp only [isClose, show (c :: d :: r2).take 4 = c :: d :: r2.take 2 from rfl]
        simp [List.cons_beq_cons]
        intro _
        exact fun hdq => absurd hdq hd
    simp [hasClose, hc, ih hr]

/-- Dropping the word-character language tag stops at the newline. -/
theorem dropWhile_word_append (tag rest : List Char) (h : tag.all isWordChar = true) :
    (tag ++ '\n' :: rest).dropWhile isWordChar = '\n' :: rest := by
  induction tag with
  | nil => simp [List.dropWhile_cons, show isWordChar '\n' = false from by decide]
  | cons a t ih =>
    rw [List.all_cons, Bool.and_eq_true] at h
    simp [List.dropWhile_cons, h.1, ih h.2]

/-- The opening match succeeds on a three-backtick fence with a
word-character tag and returns everything after the opening newline. -/
theorem matchOpen_fence (tag rest : List Char) (h : tag.all isWordChar = true) :
    matchOpen (backquote :: backquote :: backquote :: (tag ++ '\n' :: rest)) = some rest := by
  simp only [matchOpen,
    show (backquote :: backquote :: backquote :: (tag ++ '\n' :: rest)).drop 3
      = tag ++ '\n' :: rest from rfl,
    dropWhile_word_append tag rest h]
  rw [if_pos ⟨rfl, rfl⟩]
  rfl

/-- The lazy close search on content that contains no closing pattern
returns exactly that content and the characters after the closing fence. -/
theorem findClose_boundary (content rest : List Char) (h : hasClose content = false) :
    findClose (content ++ '\n' :: backquote :: backquote :: backquote :: rest)
      = some (content, rest) := by
  induction content with
  | nil =>
    have hc : isClose ('\n' :: backquote :: backquote :: backquote :: rest) = true := by
      simp [isClose]
    simp [findClose, hc]
  | cons x c ih =>
    obtain ⟨h1, h2⟩ := hasClose_cons_false x c h
    have hx : isClose (x :: (c ++ '\n' :: backquote :: backquote :: backquote :: rest))
        = false := by
      rcases c with _ | ⟨y, _ | ⟨z, _ | ⟨w, c2⟩⟩⟩
      · simp only [List.nil_append, isClose,
          show (x :: '\n' :: backquote :: backquote :: backquote :: rest).take 4
            = [x, '\n', backquote, backquote] from rfl]
        simp [List.cons_beq_cons]
        intro _
        decide
      · simp only [List.cons_append, List.nil_append, isClose,
          show (x :: y :: '\n' :: backquote :: backquote :: backquote :: rest).take 4
            = [x, y, '\n', backquote] from rfl]
        simp [List.cons_beq_cons]
        intro _ _
        decide
      · simp only [List.cons_append, List.nil_append, isClose,
          show (x :: y :: z :: '\n' :: backquote :: backquote :: backquote :: rest).take 4
            = [x, y, z, '\n'] from rfl]
        simp [List.cons_beq_cons]
        intro _ _ _
        decide
      · have : isClose (x :: y :: z :: w :: (c2 ++ '\n' :: backquote :: backquote ::
            backquote :: rest)) = isClose (x :: y :: z :: w :: c2) := by
          simp only [isClose,
            show ∀ u : List Char, (x :: y :: z :: w :: u).take 4 = [x, y, z, w] from
              fun u => rfl]
        simpa [this] using h1
    rw [List.cons_append]
    simp only [findClose, hx, Bool.false_eq_true, if_false, ih h2]

/-- Scanning backtick-free text consumes exactly its length of fuel and
finds nothing in it. -/
theorem scanAux_gap (gap : List Char)
    (h : gap.all (fun c => c != backquote) = true) :
    ∀ (m : Nat) (s : List Char), scanAux (gap.length + m) (gap ++ s) = scanAux m s := by
  induction gap with
  | nil => intro m s; simp
  | cons c g ih =>
    intro m s
    rw [List.all_cons, Bool.and_eq_true] at h
    have hc : ¬ c = backquote := by simpa using h.1
    rw [List.cons_append,
      show (c :: g).length + m = (g.length + m) + 1 from by simp; omega]
    simp only [scanAux, matchOpen_of_head_ne c (g ++ s) hc]
    exact ih h.2 m s

theorem mkDoc_data (parts : List (String × String × String)) (final : String) :
    (mkDoc parts final).data
      = mkDocL (parts.map (fun p => (p.1.data, p.2.1.data, p.2.2.data))) final.data := by
  induction parts with
  | nil => rfl
  | cons p rest ih =>
    obtain ⟨gap, tag, content⟩ := p
    simp only [mkDoc, mkDocL, List.map_cons, String.data_append, ih, mkFence]
    simp [backquote,
      show ("```" : String).data = ['\x60', '\x60', '\x60'] from by decide,
      show ("\n" : String).data = ['\n'] from by decide,
      show ("\n```" : String).data = ['\n', '\x60', '\x60', '\x60'] from by decide]

/-- With enough fuel, the scanner extracts exactly the block contents of a
well-formed document, in order. -/
theorem scanAux_mkDocL (parts : List (List Char × List Char × List Char))
    (final : List Char)
    (hp : ∀ p ∈ parts, p.1.all (fun c => c != backquote) = true ∧
      p.2.1.all isWordChar = true ∧ hasClose p.2.2 = false)
    (hf : final.all (fun c => c != backquote) = true) :
    ∀ n, (mkDocL parts final).length ≤ n →
      scanAux n (mkDocL parts final) = parts.map (fun p => p.2.2) := by
  induction parts with
  | nil =>
    intro n _
    exact scanAux_nil_of_hasClose_false n final (hasClose_of_no_backquote final hf)
  | cons p rest ih =>
    obtain ⟨gap, tag, content⟩ := p
    intro n hn
    obtain ⟨hgap, htag, hcontent⟩ := hp (gap, tag, content) (List.mem_cons_self _ _)
    have hlen : (mkDocL ((gap, tag, content) :: rest) final).length
        = gap.length + (tag.length + content.length + 8 + (mkDocL rest final).length) := by
      simp [mkDocL]
      omega
    have hgn : gap.length ≤ n := by omega
    have hsplit : n = gap.length + (n - gap.length) := by omega
    rw [show mkDocL ((gap, tag, content) :: rest) final
        = gap ++ (backquote :: backquote :: backquote ::
          (tag ++ '\n' :: (content ++ '\n' :: backquote :: backquote :: backquote ::
            mkDocL rest final))) from rfl]
    rw [hsplit, scanAux_gap gap hgap]
    have hm : 1 ≤ n - gap.length := by omega
    rw [show n - gap.length = (n - gap.length - 1) + 1 from by omega]
    simp only [scanAux, matchOpen_fence tag _ htag,
      findClose_boundary content (mkDocL rest final) hcontent]
    rw [List.map_cons]
    congr 1
    exact ih (fun q hq => hp q (List.mem_cons_of_mem _ hq)) (n - gap.length - 1)
      (by omega)

theorem rolesUA_append (a b : List Message) :
    rolesUA (a ++ b) = (rolesUA a && rolesUA b) := List.all_append

/-- Every request issued by the async interactive loop (started from the
system message followed by user/assistant history) is the system message
followed by the nonempty role-tagged history at that point. -/
theorem interactiveLoopA_requests (tr : List Message → String) :
    ∀ (inputs : List String) (h0 : List Message), rolesUA h0 = true →
      ∀ req ∈ (interactiveLoopA tr inputs (asyncInteractiveSystem :: h0)).2,
        ∃ h, req = asyncInteractiveSystem :: h ∧ rolesUA h = true ∧ h ≠ [] := by
  intro inputs
  induction inputs with
  | nil => intro h0 _ req hreq; simp [interactiveLoopA] at hreq
  | cons i rest ih =>
    intro h0 hroles req hreq
    by_cases hs : isSentinelA (rustTrim i) = true
    · simp [interactiveLoopA, hs] at hreq
    · simp only [interactiveLoopA, hs, Bool.false_eq_true, if_false,
        List.mem_cons] at hreq
      rcases hreq with hreq | hreq
      · refine ⟨h0 ++ [⟨"user", rustTrim i⟩], ?_, ?_, by simp⟩
        · simpa using hreq
        · rw [rolesUA_append, hroles]
          rfl
      · have hr2 : rolesUA (h0 ++ [⟨"user", rustTrim i⟩,
            ⟨"assistant", tr ((asyncInteractiveSystem :: h0) ++ [⟨"user", rustTrim i⟩])⟩])
            = true := by
          rw [rolesUA_append, hroles]
          rfl
        have := ih (h0 ++ [⟨"user", rustTrim i⟩,
          ⟨"assistant", tr ((asyncInteractiveSystem :: h0) ++ [⟨"user", rustTrim i⟩])⟩])
          hr2 req
        apply this
        simpa [List.append_assoc] using hreq

/-- Every request issued by the blocking interactive loop consists of the
session system prompt followed by a single user message (the flattened
history). -/
theorem interactiveLoopB_requests (tr : String → Option String → String) :
    ∀ (inputs : List String) (hist : List Message),
      ∀ req ∈ (interactiveLoopB tr inputs hist).2,
        ∃ flat, req = [⟨"system", cmdInteractiveSystemPrompt⟩, ⟨"user", flat⟩] := by
  intro inputs
  induction inputs with
  | nil => intro hist req hreq; simp [interactiveLoopB] at hreq
  | cons i rest ih =>
    intro hist req hreq
    by_cases hs : isSentinelB (rustTrim i) = true
    · simp [interactiveLoopB, hs] at hreq
    · simp only [interactiveLoopB, hs, Bool.false_eq_true, if_false,
        List.mem_cons] at hreq
      rcases hreq with hreq | hreq
      · exact ⟨flattenHistory (hist ++ [⟨"user", rustTrim i⟩]),
          by simpa [queryMessages] using hreq⟩
      · exact ih _ req hreq

/-! ## Ini lemma -/

theorem iniGet_iniSet (ini : IniData) (sect key v : String) :
    iniGet (iniSet ini sect key v) sect key = some v := by
  induction ini with
  | nil => simp [iniSet, iniGet]
  | cons e rest ih =>
    by_cases he : (e.1.1 == sect && e.1.2 == key) = true
    · simp [iniSet, he, iniGet]
    · simp only [iniSet, he, Bool.false_eq_true, if_false]
      simpa [iniGet, List.find?, he] using ih

/-! ## Claim C3 -/

/-- C3 counterexample: the input has zero well-formed fence pairs under the
claim's own fence semantics (no line consists of a fence marker except the
final unterminated one), yet `extract_code_blocks` returns one block,
because the regex matches three backticks in the middle of the first line.
So `extract` does not return exactly N strings for a document with N
well-formed fence pairs. -/
theorem c3_midline_fence_counterexample :
    canonical_extract "ab```\nz\n```" = [] ∧
    extract_code_blocks "ab```\nz\n```" = ["z"] := by
  constructor
  · decide
  · decide

/-- Claim C3 (amended): for markdown whose well-formed fence pairs use
exactly-three-backtick fences with word-character language tags, whose
opening fence is followed directly by a newline, whose closing fence is
preceded by a newline, whose block contents do not contain a newline
followed by three backticks, and whose text outside the blocks is
backtick-free, `extract_code_blocks` returns exactly one string per fence
pair, in document order, each the verbatim inter-fence content with the
language tag discarded.  (Fences longer than three backticks, fences not
at the start of a line, and non-word language tags are not handled
according to the canonical semantics — see the counterexample.) -/
theorem c3_extract_blocks_amended (parts : List (String × String × String))
    (final : String)
    (hp : ∀ p ∈ parts, p.1.data.all (fun c => c != backquote) = true ∧
      p.2.1.data.all isWordChar = true ∧ hasClose p.2.2.data = false)
    (hf : final.data.all (fun c => c != backquote) = true) :
    extract_code_blocks (mkDoc parts final) = parts.map (fun p => p.2.2) := by
  unfold extract_code_blocks
  rw [mkDoc_data]
  rw [scanAux_mkDocL (parts.map (fun p => (p.1.data, p.2.1.data, p.2.2.data))) final.data
    ?_ hf _ (Nat.le_succ _)]
  · rw [List.map_map, List.map_map]
    apply List.map_congr_left
    intro p _
    rfl
  · intro q hq
    rw [List.mem_map] at hq
    obtain ⟨p, hp2, rfl⟩ := hq
    exact hp p hp2

/-- Witness for C3: the specification's own example document. -/
theorem c3_extract_blocks_witness :
    extract_code_blocks (mkDoc [("", "python", "def f():\n    pass")] "")
      = ["def f():\n    pass"] := by
  have h := c3_extract_blocks_amended [("", "python", "def f():\n    pass")] ""
    (by decide) (by decide)
  simpa using h

/-! ## Claim C9 -/

/-- C9 counterexample: an input with zero well-formed fence pairs (the
only fence-marker line is the final, unterminated one) on which
`extract_code_blocks` nevertheless returns a block, because the regex
accepts the mid-line three backticks of the first line as an opening. -/
theorem c9_zero_pairs_counterexample :
    canonical_extract "x```\ny\n```" = [] ∧
    extract_code_blocks "x```\ny\n```" = ["y"] := by
  constructor
  · decide
  · decide

/-- Claim C9 (amended): `extract_code_blocks` is a total function (never
an error) and returns the empty sequence on every input that contains no
newline-followed-by-three-backticks sequence; this covers every string
with no backtick at all and every string that is a single unterminated
opening fence.  (An input with zero well-formed fence pairs can still
produce output when three backticks occur mid-line — see the
counterexample.) -/
theorem c9_no_close_amended (s : String) (h : hasClose s.data = false) :
    extract_code_blocks s = [] := by
  unfold extract_code_blocks
  rw [scanAux_nil_of_hasClose_false _ _ h]
  rfl

/-- Witness for C9: a fence-free document. -/
theorem c9_no_close_witness :
    extract_code_blocks "No code blocks here." = [] :=
  c9_no_close_amended "No code blocks here." (by decide)

/-! ## Claim C1 -/

/-- C1 counterexample: in the blocking implementation's interactive mode
(`cmd_interactive`), the first turn with input `hello` produces a request
whose messages are the system prompt followed by a single user message
containing the flattened history text `User: hello` — not the accumulated
history `[user hello]` as separate role-tagged messages. -/
theorem c1_flattened_history_counterexample :
    (interactiveLoopB (fun _ _ => "ok") ["hello"] []).2
      = [[⟨"system", cmdInteractiveSystemPrompt⟩, ⟨"user", "User: hello"⟩]] ∧
    ¬ ([[⟨"system", cmdInteractiveSystemPrompt⟩, ⟨"user", "User: hello"⟩]]
        : List (List Message))
      = [[⟨"system", cmdInteractiveSystemPrompt⟩, ⟨"user", "hello"⟩]] := by
  constructor
  · decide
  · decide

/-- Claim C1 (amended): every request built by the blocking
`query_openrouter` has at most one system message, placed first, followed
by one or more user/assistant messages; every request issued by the async
implementation's interactive loop is the session system message followed
by the nonempty accumulated history as separate role-tagged
user/assistant messages; but every request issued by the blocking
implementation's interactive loop is the system prompt followed by a
single user message holding the flattened history text. -/
theorem c1_request_shape_amended :
    (∀ (prompt : String) (sys : Option String),
      wellFormedRequest (queryMessages prompt sys) = true) ∧
    (∀ (tr : List Message → String) (inputs : List String)
        (req : List Message),
      req ∈ (interactiveLoopA tr inputs [asyncInteractiveSystem]).2 →
        ∃ h, req = asyncInteractiveSystem :: h ∧ rolesUA h = true ∧ ¬ h = []) ∧
    (∀ (tr : String → Option String → String) (inputs : List String)
        (req : List Message),
      req ∈ (interactiveLoopB tr inputs []).2 →
        ∃ flat, req = [⟨"system", cmdInteractiveSystemPrompt⟩, ⟨"user", flat⟩]) := by
  refine ⟨?_, ?_, ?_⟩
  · intro prompt sys
    cases sys <;> simp [queryMessages, wellFormedRequest, rolesUA]
  · intro tr inputs req hreq
    exact interactiveLoopA_requests tr inputs [] rfl req hreq
  · intro tr inputs req hreq
    exact interactiveLoopB_requests tr inputs [] req hreq

/-- Witness for C1: the request shapes at concrete sessions. -/
theorem c1_request_shape_witness :
    wellFormedRequest (queryMessages "hi" (some "sys")) = true ∧
    (∃ h, ([asyncInteractiveSystem, ⟨"user", "hello"⟩] : List Message)
        = asyncInteractiveSystem :: h ∧ rolesUA h = true ∧ ¬ h = []) ∧
    (∃ flat, ([⟨"system", cmdInteractiveSystemPrompt⟩, ⟨"user", "User: hello"⟩]
        : List Message)
      = [⟨"system", cmdInteractiveSystemPrompt⟩, ⟨"user", flat⟩]) := by
  refine ⟨c1_request_shape_amended.1 "hi" (some "sys"), ?_, ?_⟩
  · exact c1_request_shape_amended.2.1 (fun _ => "ok") ["hello"]
      [asyncInteractiveSystem, ⟨"user", "hello"⟩] (by decide)
  · exact c1_request_shape_amended.2.2 (fun _ _ => "ok") ["hello"]
      [⟨"system", cmdInteractiveSystemPrompt⟩, ⟨"user", "User: hello"⟩] (by decide)

/-! ## Claim C6 -/

/-- C6 counterexample: in the async implementation's interactive mode the
input `q` is not a sentinel: the session appends a user message (and the
assistant reply) and issues one completion call, instead of transitioning
to the exited state with no append and no network call. -/
theorem c6_async_q_counterexample :
    interactiveLoopA (fun _ => "ok") ["q"] [asyncInteractiveSystem]
      = ([asyncInteractiveSystem, ⟨"user", "q"⟩, ⟨"assistant", "ok"⟩],
         [[asyncInteractiveSystem, ⟨"user", "q"⟩]]) := by
  decide

/-- Claim C6 (amended): in the blocking implementation's interactive loop
the sentinels are exactly `exit`, `quit`, `q` on the trimmed lowercased
input — a sentinel ends the session with no message appended and no
completion call, and any other input appends exactly one user message
(plus the assistant reply) and issues exactly one completion call for the
turn.  In the async implementation the sentinels are only `exit` and
`quit`, with the same turn behavior for other inputs (so `q` is an
ordinary message there — see the counterexample). -/
theorem c6_sentinel_amended :
    (∀ (tr : String → Option String → String) (hist : List Message) (i : String),
      (isSentinelB (rustTrim i) = true → interactiveLoopB tr [i] hist = (hist, [])) ∧
      (isSentinelB (rustTrim i) = false →
        interactiveLoopB tr [i] hist
          = (hist ++ [⟨"user", rustTrim i⟩,
              ⟨"assistant", tr (flattenHistory (hist ++ [⟨"user", rustTrim i⟩]))
                (some cmdInteractiveSystemPrompt)⟩],
             [queryMessages (flattenHistory (hist ++ [⟨"user", rustTrim i⟩]))
                (some cmdInteractiveSystemPrompt)]))) ∧
    (∀ (tr : List Message → String) (msgs : List Message) (i : String),
      (isSentinelA (rustTrim i) = true → interactiveLoopA tr [i] msgs = (msgs, [])) ∧
      (isSentinelA (rustTrim i) = false →
        interactiveLoopA tr [i] msgs
          = (msgs ++ [⟨"user", rustTrim i⟩,
              ⟨"assistant", tr (msgs ++ [⟨"user", rustTrim i⟩])⟩],
             [msgs ++ [⟨"user", rustTrim i⟩]]))) := by
  constructor
  · intro tr hist i
    constructor
    · intro h
      simp [interactiveLoopB, h]
    · intro h
      simp [interactiveLoopB, h]
  · intro tr msgs i
    constructor
    · intro h
      simp [interactiveLoopA, h]
    · intro h
      simp [interactiveLoopA, h]

/-- Witness for C6: sentinel and non-sentinel turns at concrete inputs. -/
theorem c6_sentinel_witness :
    interactiveLoopB (fun _ _ => "ok") ["exit"] [] = ([], []) ∧
    interactiveLoopA (fun _ => "ok") ["quit"] [asyncInteractiveSystem]
      = ([asyncInteractiveSystem], []) ∧
    interactiveLoopB (fun _ _ => "ok") ["hi"] []
      = ([⟨"user", "hi"⟩, ⟨"assistant", "ok"⟩],
         [queryMessages (flattenHistory [⟨"user", "hi"⟩])
            (some cmdInteractiveSystemPrompt)]) := by
  refine ⟨?_, ?_, ?_⟩
  · exact (c6_sentinel_amended.1 (fun _ _ => "ok") [] "exit").1 (by decide)
  · exact (c6_sentinel_amended.2 (fun _ => "ok") [asyncInteractiveSystem] "quit").1
      (by decide)
  · have h := (c6_sentinel_amended.1 (fun _ _ => "ok") [] "hi").2 (by decide)
    simpa using h

/-! ## Claim C2 -/

/-- C2 counterexample: in the async implementation the environment
variable takes precedence over the persisted store (the claim's order is
the reverse), and the built-in default model is
`mistralai/mistral-7b-instruct:free`, not `openrouter/auto`. -/
theorem c2_env_precedence_counterexample :
    resolveApiKeyAsync (some "envkey") [(("API", "api_key"), "storedkey")]
      = some "envkey" ∧
    ¬ resolveApiKeyAsync (some "envkey") [(("API", "api_key"), "storedkey")]
      = some "storedkey" ∧
    resolveModelAsync none [] = "mistralai/mistral-7b-instruct:free" ∧
    ¬ DEFAULT_MODEL_ASYNC = DEFAULT_MODEL := by
  refine ⟨rfl, by decide, rfl, by decide⟩

/-- Claim C2 (amended): in the blocking implementation the credential
resolves as stored-value-first, then environment variable, then missing
(there is no explicit credential override in that implementation), and
the built-in defaults are model `openrouter/auto`, max_tokens 1024,
temperature 0.7 and an empty credential.  In the async implementation the
credential resolves environment-variable-first (even when set to the
empty string) and then the nonempty stored value, while the model
resolves as explicit override, then stored value, then the built-in
default `mistralai/mistral-7b-instruct:free`. -/
theorem c2_resolution_amended :
    (∀ (cfg : Config) (env : Option String),
      get_api_key cfg env
        = firstPresent [nonemptyOpt cfg.api_key, nonemptyOpt (env.getD "")]) ∧
    (∀ (env : Option String) (ini : IniData),
      resolveApiKeyAsync env ini
        = firstPresent [env, (iniGet ini "API" "api_key").bind nonemptyOpt]) ∧
    (∀ (ovr : Option String) (ini : IniData),
      resolveModelAsync ovr ini
        = (firstPresent [ovr, iniGet ini "API" "default_model"]).getD
            DEFAULT_MODEL_ASYNC) ∧
    Config.defaultConfig = ⟨"", "openrouter/auto", 1024, (7 : Rat) / 10⟩ := by
  refine ⟨?_, ?_, ?_, rfl⟩
  · intro cfg env
    by_cases h : cfg.api_key = ""
    · by_cases he : env.getD "" = "" <;>
        simp [get_api_key, nonemptyOpt, firstPresent, h, he]
    · simp [get_api_key, nonemptyOpt, firstPresent, h]
  · intro env ini
    cases env with
    | some v => rfl
    | none =>
      cases hg : iniGet ini "API" "api_key" with
      | none => simp [resolveApiKeyAsync, hg, firstPresent]
      | some s =>
        by_cases hs : s = "" <;>
          simp [resolveApiKeyAsync, hg, firstPresent, nonemptyOpt, hs]
  · intro ovr ini
    cases ovr with
    | some m => rfl
    | none => cases hg : iniGet ini "API" "default_model" <;>
        simp [resolveModelAsync, hg, firstPresent]

/-! ## Claim C5 -/

/-- C5 counterexample: with an empty persisted store and the environment
variable set to the empty string, no credential exists in any source —
yet the async implementation resolves `Some("")` (its `env::var(..).ok()`
treats a set-but-empty variable as present), passes `make_request`'s
presence check, and sends the request with an empty Bearer token: one
network call is issued and the outcome is not the credential-missing
error. -/
theorem c5_empty_env_counterexample :
    resolveApiKeyAsync (some "") [] = some "" ∧
    (make_request (resolveApiKeyAsync (some "") []) [] none []
        (fun _ => ⟨200, "", some ⟨[]⟩⟩)).2 = 1 ∧
    ¬ (make_request (resolveApiKeyAsync (some "") []) [] none []
        (fun _ => ⟨200, "", some ⟨[]⟩⟩)).1
      = Except.error RequestError.apiKeyNotSet := by
  refine ⟨rfl, rfl, fun h => Except.noConfusion h⟩

/-- Claim C5 (amended): in the blocking implementation, whenever the
stored credential is empty and the environment variable is unset or
empty, the call fails with the credential-missing outcome and the
transport is never invoked (zero network calls).  In the async
implementation the same holds whenever the resolved credential is absent
(environment variable unset and no nonempty stored value); but an
environment variable set to the empty string is treated as a present
credential, and the request is then sent — with an empty Bearer token —
as one network call. -/
theorem c5_credential_missing_amended :
    (∀ (store : Option Config) (env : Option String)
        (tr : OpenRouterRequest → CompletionHttpResponse) (prompt : String)
        (sys : Option String),
      (load_config store).api_key = "" → env.getD "" = "" →
      query_openrouter store env tr prompt sys
        = (Except.error QueryError.credentialMissing, 0)) ∧
    (∀ (env : Option String) (ini : IniData) (messages : List Message)
        (model : Option String) (tr : ChatRequest → ChatHttpResponse),
      resolveApiKeyAsync env ini = none →
      make_request (resolveApiKeyAsync env ini) messages model ini tr
        = (Except.error RequestError.apiKeyNotSet, 0)) ∧
    (∀ (ini : IniData) (messages : List Message) (model : Option String)
        (tr : ChatRequest → ChatHttpResponse),
      resolveApiKeyAsync (some "") ini = some "" ∧
      (make_request (resolveApiKeyAsync (some "") ini) messages model ini tr).2
        = 1) := by
  refine ⟨?_, ?_, ?_⟩
  · intro store env tr prompt sys h1 h2
    simp [query_openrouter, get_api_key, h1, h2]
  · intro env ini messages model tr h
    rw [h]
    rfl
  · intro ini messages model tr
    exact ⟨rfl, rfl⟩

/-- Witness for C5: no stored credential, no environment variable. -/
theorem c5_credential_missing_witness :
    query_openrouter none none (fun _ => ⟨200, "", none⟩) "hi" none
      = (Except.error QueryError.credentialMissing, 0) ∧
    make_request (resolveApiKeyAsync none []) [] none []
        (fun _ => ⟨200, "", none⟩)
      = (Except.error RequestError.apiKeyNotSet, 0) ∧
    (make_request (resolveApiKeyAsync (some "") []) [] none []
        (fun _ => ⟨200, "", none⟩)).2 = 1 :=
  ⟨c5_credential_missing_amended.1 none none (fun _ => ⟨200, "", none⟩) "hi" none
      rfl rfl,
   c5_credential_missing_amended.2.1 none [] [] none (fun _ => ⟨200, "", none⟩) rfl,
   (c5_credential_missing_amended.2.2 [] [] none (fun _ => ⟨200, "", none⟩)).2⟩

/-! ## Claim C4 -/

/-- C4 counterexample: the async `make_request` has no zero-choices check:
on an HTTP 200 reply whose body parses to zero choices it returns the
response as success instead of the EmptyResponse error, and every caller
then indexes `choices[0]`, which panics (modelled as `none`). -/
theorem c4_async_missing_empty_check_counterexample :
    make_request (some "key") [] none [] (fun _ => ⟨200, "body", some ⟨[]⟩⟩)
      = (Except.ok ⟨[]⟩, 1) ∧
    firstChoiceContent ⟨[]⟩ = none := by
  constructor
  · rfl
  · rfl

/-- Claim C4 (amended): the blocking `query_openrouter` returns its
no-choices error on every 2xx reply that parses to zero choices, raising
no other parse or indexing error; the async `make_request` instead
returns such a reply as success, and its callers' first-choice indexing
has no value (a panic) on the empty choices list. -/
theorem c4_empty_choices_amended :
    (∀ (r : CompletionHttpResponse) (resp : OpenRouterResponse),
      isSuccessStatus r.status = true → r.parsed = some resp →
      resp.choices = [] →
      handleCompletionReply r
        = Except.error (QueryError.emptyResponse
            "OpenRouter API returned no choices")) ∧
    (∀ (r : ChatHttpResponse) (cr : ChatResponse),
      isSuccessStatus r.status = true → r.parsed = some cr →
      cr.choices = [] →
      handleChatReply r = Except.ok cr ∧ firstChoiceContent cr = none) := by
  constructor
  · intro r resp h1 h2 h3
    simp [handleCompletionReply, h1, h2, h3]
  · intro r cr h1 h2 h3
    refine ⟨by simp [handleChatReply, h1, h2], ?_⟩
    simp [firstChoiceContent, h3]

/-- Witness for C4: a 200 reply parsing to zero choices. -/
theorem c4_empty_choices_witness :
    handleCompletionReply ⟨200, "b", some ⟨[]⟩⟩
      = Except.error (QueryError.emptyResponse
          "OpenRouter API returned no choices") ∧
    (handleChatReply ⟨200, "b", some ⟨[]⟩⟩ = Except.ok ⟨[]⟩ ∧
      firstChoiceContent ⟨[]⟩ = none) :=
  ⟨c4_empty_choices_amended.1 ⟨200, "b", some ⟨[]⟩⟩ ⟨[]⟩ (by decide) rfl rfl,
   c4_empty_choices_amended.2 ⟨200, "b", some ⟨[]⟩⟩ ⟨[]⟩ (by decide) rfl rfl⟩

/-! ## Claim C7 -/

/-- C7 counterexample: the blocking implementation's non-2xx error is
built from the body alone (`OpenRouter API returned error: {body}`), so
two replies with different status codes produce identical errors — the
error does not carry the numeric status code. -/
theorem c7_status_dropped_counterexample :
    handleCompletionReply ⟨404, "oops", none⟩
      = handleCompletionReply ⟨500, "oops", none⟩ ∧
    handleCompletionReply ⟨404, "oops", none⟩
      = Except.error (QueryError.apiError
          "OpenRouter API returned error: oops") := by
  constructor
  · rfl
  · rfl

/-- Claim C7 (amended): on every non-2xx reply both implementations fail
with an error that carries the raw response body verbatim; the async
implementation's error also carries the numeric status code, while the
blocking implementation's error omits the status code. -/
theorem c7_api_error_amended (status : Nat) (body : String)
    (p1 : Option OpenRouterResponse) (p2 : Option ChatResponse)
    (h : isSuccessStatus status = false) :
    handleCompletionReply ⟨status, body, p1⟩
      = Except.error (QueryError.apiError
          ("OpenRouter API returned error: " ++ body)) ∧
    handleChatReply ⟨status, body, p2⟩
      = Except.error (RequestError.apiError
          ("API request failed with status " ++ statusDisplay status
            ++ ": " ++ body)) := by
  constructor
  · simp [handleCompletionReply, h]
  · simp [handleChatReply, h]

/-- Witness for C7: a 404 reply with a diagnostic body. -/
theorem c7_api_error_witness :
    handleCompletionReply ⟨404, "denied", none⟩
      = Except.error (QueryError.apiError
          ("OpenRouter API returned error: " ++ "denied")) ∧
    handleChatReply ⟨404, "denied", none⟩
      = Except.error (RequestError.apiError
          ("API request failed with status " ++ statusDisplay 404
            ++ ": " ++ "denied")) :=
  c7_api_error_amended 404 "denied" none none (by decide)

/-! ## Claim C8 -/

/-- C8 counterexample: when the persisted write fails, `set_api_key`
leaves the store and the resolved credential unchanged, but the in-memory
configuration map has already been mutated to the new credential — the
in-memory state is not left unchanged, so the operation is not atomic in
the claimed sense. -/
theorem c8_memory_mutation_counterexample :
    (set_api_key ⟨[(("API", "api_key"), "old")], some "old"⟩
        [(("API", "api_key"), "old")] "new" false).ok = false ∧
    (set_api_key ⟨[(("API", "api_key"), "old")], some "old"⟩
        [(("API", "api_key"), "old")] "new" false).store
      = [(("API", "api_key"), "old")] ∧
    (set_api_key ⟨[(("API", "api_key"), "old")], some "old"⟩
        [(("API", "api_key"), "old")] "new" false).memory.config
      = [(("API", "api_key"), "new")] ∧
    ¬ (set_api_key ⟨[(("API", "api_key"), "old")], some "old"⟩
        [(("API", "api_key"), "old")] "new" false).memory
      = ⟨[(("API", "api_key"), "old")], some "old"⟩ := by
  refine ⟨rfl, rfl, by decide, by decide⟩

/-- Claim C8 (amended): on a successful write, `set_api_key` writes the
new credential through to the store and reflects it in both in-memory
fields; on a failed write the store and the resolved credential field are
left unchanged, but the in-memory configuration map already holds the new
credential. -/
theorem c8_set_credential_amended (st : NimbusState) (store : IniData)
    (key : String) :
    ((set_api_key st store key true).store
        = iniSet st.config "API" "api_key" key ∧
      iniGet (set_api_key st store key true).store "API" "api_key" = some key ∧
      (set_api_key st store key true).memory.apiKey = some key ∧
      (set_api_key st store key true).memory.config
        = (set_api_key st store key true).store) ∧
    ((set_api_key st store key false).store = store ∧
      (set_api_key st store key false).memory.apiKey = st.apiKey ∧
      iniGet (set_api_key st store key false).memory.config "API" "api_key"
        = some key) := by
  refine ⟨⟨rfl, ?_, rfl, rfl⟩, rfl, rfl, ?_⟩
  · exact iniGet_iniSet st.config "API" "api_key" key
  · exact iniGet_iniSet st.config "API" "api_key" key

/-! ## Claim C10 -/

/-- C10 counterexample: an empty stored credential is displayed unchanged
as the empty string, not as eight asterisks as the claim's `otherwise`
case requires. -/
theorem c10_empty_key_counterexample :
    (cmdConfigShowDisplay ⟨"", "openrouter/auto", 1024, 1⟩).api_key = "" ∧
    ¬ ("" : String) = "********" :=
  ⟨rfl, by decide⟩

/-- Claim C10 (amended): the configuration display replaces only the
api-key field — keys longer than four characters become eight asterisks
followed by exactly the last four characters, other nonempty keys become
exactly eight asterisks, and the empty key is displayed unchanged (empty);
all other fields are displayed unchanged. -/
theorem c10_mask_amended (c : Config) :
    cmdConfigShowDisplay c = { c with api_key := maskSpecAmended c.api_key } := by
  obtain ⟨k, m, mt, t⟩ := c
  by_cases h1 : k = ""
  · subst h1
    simp [cmdConfigShowDisplay, maskSpecAmended]
  · by_cases h2 : 4 < k.length
    · simp [cmdConfigShowDisplay, maskSpecAmended, h1, h2]
    · simp [cmdConfigShowDisplay, maskSpecAmended, h1, h2]
